import Mathlib

/-!
Shallow embedding of the Session & Identity Lifecycle Manager of the chat
backend (files backend/session_services.py and backend/auth_service.py).

Modelling conventions:
* The MongoDB collections sessions, messages and users are lists of records
  kept in insertion (natural) order; find, update_one, delete_one act on the
  first matching element, update_many/delete_many on all matching elements,
  exactly as the per-document Mongo primitives do.
* str(uuid.uuid4()) is modelled by a counter nextId: each generated
  identifier is a Nat fresh with respect to every identifier the generator
  produced before.  The practical uuid4 guarantee, that a generated id never
  collides with any identifier already present, becomes the well-formedness
  predicate wfStore below.
* datetime.utcnow() is modelled by a logical clock: every read returns the
  current tick and advances the clock by one.  Two consecutive reads return
  distinct instants, reflecting that two utcnow() calls need not return the
  same value.
* Session and message identifiers are Nat; user identifiers are String so
  that the startswith("anon_") dispatch is kept literally.
-/

structure Session where
  session_id : Nat
  user_id : String
  title : String
  created_at : Nat
  updated_at : Nat
  message_count : Nat
  is_active : Bool
deriving Repr, DecidableEq

structure Message where
  message_id : Nat
  session_id : Nat
  type : String
  content : String
  timestamp : Nat
deriving Repr, DecidableEq

structure User where
  user_id : String
  email : String
  name : String
  password_hash : String
  created_at : Nat
  last_active : Nat
deriving Repr, DecidableEq

/-- Shape of the dicts produced by get_user_sessions for the frontend. -/
structure SessionSummary where
  session_id : Nat
  title : String
  updated_at : Nat
  message_count : Nat
deriving Repr, DecidableEq

/-- The document store: the three collections, the uuid generator counter
and the logical clock. -/
structure Store where
  sessions : List Session
  messages : List Message
  users : List User
  nextId : Nat
  clock : Nat
deriving Repr, DecidableEq

/-- Mongo update_one: apply the patch f to the first document matching p. -/
def updateFirst (p : α → Bool) (f : α → α) : List α → List α
  | [] => []
  | x :: xs => if p x then f x :: xs else x :: updateFirst p f xs

/-- Mongo delete_one: remove the first document matching p; also return the
deleted_count (0 or 1). -/
def deleteFirstCount (p : α → Bool) : List α → List α × Nat
  | [] => ([], 0)
  | x :: xs =>
    if p x then (xs, 1)
    else
      let r := deleteFirstCount p xs
      (x :: r.1, r.2)

/-- Stable insertion step for ascending timestamp sort. -/
def insertByTimestamp (m : Message) : List Message → List Message
  | [] => [m]
  | x :: xs =>
    if x.timestamp < m.timestamp then x :: insertByTimestamp m xs
    else m :: x :: xs

/-- Mongo sort("timestamp", 1): ascending, earlier inserted first on ties. -/
def sortByTimestamp : List Message → List Message
  | [] => []
  | x :: xs => insertByTimestamp x (sortByTimestamp xs)

/-- Stable insertion step for descending updated_at sort. -/
def insertByUpdatedDesc (s : Session) : List Session → List Session
  | [] => [s]
  | x :: xs =>
    if s.updated_at < x.updated_at then x :: insertByUpdatedDesc s xs
    else s :: x :: xs

/-- Mongo sort("updated_at", -1): descending by last activity. -/
def sortByUpdatedDesc : List Session → List Session
  | [] => []
  | x :: xs => insertByUpdatedDesc x (sortByUpdatedDesc xs)

/-- Python str.startswith, on the code points of the strings. -/
def strStartsWith (s p : String) : Bool :=
  s.data.take p.data.length == p.data

/-- Filter used by session listing and the anonymous find_one calls:
owned by the given user and still active. -/
def sessionVisible (uid : String) (s : Session) : Bool :=
  s.user_id == uid && s.is_active

/-- ChatSessionService.create_session: insert a new session document with
default metadata and return the fresh session_id.  The two utcnow() calls
of the source give created_at the current tick and updated_at the next. -/
def create_session (st : Store) (user_id : String) : Nat × Store :=
  let session_id := st.nextId
  let doc : Session :=
    { session_id := session_id
      user_id := user_id
      title := "New Chat"
      created_at := st.clock
      updated_at := st.clock + 1
      message_count := 0
      is_active := true }
  (session_id,
   { st with
       sessions := st.sessions ++ [doc]
       nextId := st.nextId + 1
       clock := st.clock + 2 })

/-- The frontend-friendly dict built for each session document returned by
get_user_sessions. -/
def summarize (d : Session) : SessionSummary :=
  { session_id := d.session_id
    title := d.title
    updated_at := d.updated_at
    message_count := d.message_count }

/-- ChatSessionService.get_user_sessions: anonymous owners get at most the
first matching active session (find with limit(1), no sort in the source);
registered owners get up to limit active sessions, most recent first. -/
def get_user_sessions (st : Store) (user_id : String) (limit : Nat) :
    List SessionSummary :=
  let docs :=
    if strStartsWith user_id "anon_" then
      (st.sessions.filter (sessionVisible user_id)).take 1
    else
      (sortByUpdatedDesc (st.sessions.filter (sessionVisible user_id))).take limit
  docs.map summarize

/-- ChatSessionService.add_message: insert the message document, then patch
the first session matching session_id with a fresh updated_at and an
incremented message_count; return the fresh message_id. -/
def add_message (st : Store) (session_id : Nat) (message_type content : String) :
    Nat × Store :=
  let message_id := st.nextId
  let doc : Message :=
    { message_id := message_id
      session_id := session_id
      type := message_type
      content := content
      timestamp := st.clock }
  let msgs := st.messages ++ [doc]
  let sess :=
    updateFirst (fun s => s.session_id == session_id)
      (fun s => { s with updated_at := st.clock + 1, message_count := s.message_count + 1 })
      st.sessions
  (message_id,
   { st with
       messages := msgs
       sessions := sess
       nextId := st.nextId + 1
       clock := st.clock + 2 })

/-- ChatSessionService.get_session_messages: the messages of the session in
ascending timestamp order, capped at limit. -/
def get_session_messages (st : Store) (session_id : Nat) (limit : Nat) :
    List Message :=
  (sortByTimestamp (st.messages.filter (fun m => m.session_id == session_id))).take limit

/-- ChatSessionService.delete_session: delete all messages of the session,
then delete the session document; true iff the session document existed.
The two Bool parameters model the store raising inside the try block at the
delete_many respectively delete_one call; the except clause turns either
into a false return instead of a propagated exception. -/
def delete_session (st : Store) (session_id : Nat)
    (failDeleteMany failDeleteOne : Bool) : Store × Bool :=
  if failDeleteMany then (st, false)
  else
    let st1 := { st with messages := st.messages.filter (fun m => !(m.session_id == session_id)) }
    if failDeleteOne then (st1, false)
    else
      let r := deleteFirstCount (fun s => s.session_id == session_id) st1.sessions
      ({ st1 with sessions := r.1 }, decide (0 < r.2))

/-- ChatSessionService.get_or_create_anonymous_session: return the first
active session of the owner if one exists, otherwise create a new one. -/
def get_or_create_anonymous_session (st : Store) (user_id : String) : Nat × Store :=
  match st.sessions.find? (sessionVisible user_id) with
  | some s => (s.session_id, st)
  | none => create_session st user_id

/-- ChatSessionService.replace_anonymous_session_content: if the owner has
an active session, delete all its messages and reset its metadata while
keeping the session_id; otherwise create a new session. -/
def replace_anonymous_session_content (st : Store) (user_id : String) : Nat × Store :=
  match st.sessions.find? (sessionVisible user_id) with
  | some existing =>
    let sid := existing.session_id
    let st1 := { st with messages := st.messages.filter (fun m => !(m.session_id == sid)) }
    let st2 :=
      { st1 with
          sessions :=
            updateFirst (fun s => s.session_id == sid)
              (fun s => { s with title := "New Chat", updated_at := st1.clock, message_count := 0 })
              st1.sessions
          clock := st1.clock + 1 }
    (sid, st2)
  | none => create_session st user_id

/-- ChatSessionService.create_session_smart: anonymous marker dispatch. -/
def create_session_smart (st : Store) (user_id : String) : Nat × Store :=
  if strStartsWith user_id "anon_" then replace_anonymous_session_content st user_id
  else create_session st user_id

/-- AuthService.migrate_anonymous_sessions: update_many re-parents every
session owned by the anonymous id.  The Python function only prints the
modified count and has no return statement, so its value is None, modelled
as the second component none. -/
def migrate_anonymous_sessions (st : Store) (anonymous_user_id new_user_id : String) :
    Store × Option Nat :=
  let sess :=
    st.sessions.map (fun s =>
      if s.user_id == anonymous_user_id then { s with user_id := new_user_id } else s)
  ({ st with sessions := sess }, none)

/-- The modified_count of the update_many inside migrate_anonymous_sessions:
the number of session documents whose owner field actually changed (Mongo
counts a document as modified only when the set changed its value). -/
def migrate_modified_count (st : Store) (anonymous_user_id new_user_id : String) : Nat :=
  if anonymous_user_id == new_user_id then 0
  else st.sessions.countP (fun s => s.user_id == anonymous_user_id)

/-- AuthService.login_user: find the user by email; if absent or the
password does not verify, raise the one ValueError with the fixed message;
otherwise patch last_active and return the result dict with a fresh token.
Password verification and token signing are the external bcrypt and jwt
collaborators, passed in as functions. -/
def login_user (verify_password : String → String → Bool)
    (create_jwt_token : String → String → String)
    (st : Store) (email password : String) :
    Except String (Store × (String × String × String × String × String)) :=
  match st.users.find? (fun u => u.email == email) with
  | none => .error "Invalid email or password"
  | some user =>
    if verify_password password user.password_hash then
      let st1 :=
        { st with
            users :=
              updateFirst (fun u => u.user_id == user.user_id)
                (fun u => { u with last_active := st.clock }) st.users
            clock := st.clock + 1 }
      .ok (st1,
        (user.user_id, user.email, user.name,
         create_jwt_token user.user_id user.email, "registered"))
    else .error "Invalid email or password"

/-- First session document matching the session_id, as find_one returns. -/
def findSession (st : Store) (sid : Nat) : Option Session :=
  st.sessions.find? (fun s => s.session_id == sid)

/-- Well-formedness of reachable stores: every identifier already present
was produced by the generator (is below nextId) and session identifiers are
pairwise distinct, which is the uuid4 freshness guarantee. -/
def wfStore (st : Store) : Prop :=
  (∀ s ∈ st.sessions, s.session_id < st.nextId) ∧
  (∀ m ∈ st.messages, m.session_id < st.nextId) ∧
  (∀ m ∈ st.messages, m.message_id < st.nextId) ∧
  (st.sessions.map Session.session_id).Nodup

instance (st : Store) : Decidable (wfStore st) := by
  unfold wfStore; infer_instance

/-- The documented counter invariant: every session counts exactly the
messages that reference it. -/
def countInv (st : Store) : Prop :=
  ∀ s ∈ st.sessions, s.message_count = st.messages.countP (fun m => m.session_id == s.session_id)

instance (st : Store) : Decidable (countInv st) := by
  unfold countInv; infer_instance

/-- The sequential operations of the lifecycle manager, for stating
invariant preservation. -/
inductive Op where
  | create (uid : String)
  | append (sid : Nat) (ty content : String)
  | reset (uid : String)
  | del (sid : Nat)
  | migrate (anon newUid : String)

/-- State effect of one operation (return values discarded; delete on the
non-raising path). -/
def applyOp (st : Store) : Op → Store
  | .create uid => (create_session st uid).2
  | .append sid ty c => (add_message st sid ty c).2
  | .reset uid => (replace_anonymous_session_content st uid).2
  | .del sid => (delete_session st sid false false).1
  | .migrate a b => (migrate_anonymous_sessions st a b).1

/-- Side condition under which an operation is considered: an appended
message may target any already-generated identifier, existing or not; this
encodes that a caller-supplied session_id string never equals an identifier
uuid4 has yet to produce. -/
def opOK (st : Store) : Op → Prop
  | .append sid _ _ => sid < st.nextId
  | _ => True

/-- N sequential append calls on one session, with the given roles and
contents. -/
def appendMsgs (st : Store) (sid : Nat) : List (String × String) → Store
  | [] => st
  | (ty, c) :: rest => appendMsgs (add_message st sid ty c).2 sid rest

/-! ### Helper lemmas -/

theorem find?_append_of_forall_false (p : α → Bool) (l1 l2 : List α)
    (h : ∀ a ∈ l1, p a = false) : (l1 ++ l2).find? p = l2.find? p := by
  induction l1 with
  | nil => rfl
  | cons x xs ih =>
    have hx := h x (by simp)
    rw [List.cons_append, List.find?_cons_of_neg _ (by simp [hx])]
    exact ih (fun a ha => h a (by simp [ha]))

/-! ### Concrete stores used as witnesses and counterexamples -/

def stTwoOwners : Store :=
  { sessions :=
      [ { session_id := 0, user_id := "anon_a", title := "New Chat",
          created_at := 0, updated_at := 1, message_count := 1, is_active := true },
        { session_id := 1, user_id := "bob", title := "New Chat",
          created_at := 2, updated_at := 3, message_count := 0, is_active := true } ]
    messages :=
      [ { message_id := 2, session_id := 0, type := "user", content := "hi", timestamp := 4 } ]
    users := []
    nextId := 3
    clock := 5 }

/-! ### C1 -/

/-- C1: after migrate(anon_id, new_id) with distinct identifiers, every
session whose owner was anon_id has owner new_id, no session keeps owner
anon_id, the other sessions and all messages are untouched. -/
theorem migrate_reparents_every_session (st : Store) (anon nuid : String)
    (hne : anon ≠ nuid) :
    ((migrate_anonymous_sessions st anon nuid).1.messages = st.messages) ∧
    (∀ s ∈ (migrate_anonymous_sessions st anon nuid).1.sessions, s.user_id ≠ anon) ∧
    ((migrate_anonymous_sessions st anon nuid).1.sessions.length = st.sessions.length) ∧
    (∀ i (h1 : i < st.sessions.length)
       (h2 : i < (migrate_anonymous_sessions st anon nuid).1.sessions.length),
       ((st.sessions.get ⟨i, h1⟩).user_id = anon →
          (migrate_anonymous_sessions st anon nuid).1.sessions.get ⟨i, h2⟩ =
            { st.sessions.get ⟨i, h1⟩ with user_id := nuid }) ∧
       ((st.sessions.get ⟨i, h1⟩).user_id ≠ anon →
          (migrate_anonymous_sessions st anon nuid).1.sessions.get ⟨i, h2⟩ =
            st.sessions.get ⟨i, h1⟩)) := by
  refine ⟨rfl, ?_, by simp [migrate_anonymous_sessions], ?_⟩
  · intro s hs
    simp only [migrate_anonymous_sessions, List.mem_map] at hs
    obtain ⟨a, _, rfl⟩ := hs
    by_cases ha : a.user_id = anon
    · simp [ha, Ne.symm hne]
    · simp [ha]
  · intro i h1 h2
    constructor
    · intro howner
      simp only [migrate_anonymous_sessions, List.get_eq_getElem, List.getElem_map]
      simp [List.get_eq_getElem] at howner
      simp [howner]
    · intro howner
      simp only [migrate_anonymous_sessions, List.get_eq_getElem, List.getElem_map]
      simp [List.get_eq_getElem] at howner
      simp [howner]

/-- Closed instance of C1 on a concrete two-owner store. -/
theorem migrate_reparents_every_session_witness :
    ((migrate_anonymous_sessions stTwoOwners "anon_a" "u1").1.messages = stTwoOwners.messages) ∧
    (∀ s ∈ (migrate_anonymous_sessions stTwoOwners "anon_a" "u1").1.sessions, s.user_id ≠ "anon_a") ∧
    ((migrate_anonymous_sessions stTwoOwners "anon_a" "u1").1.sessions.length = stTwoOwners.sessions.length) ∧
    (∀ i (h1 : i < stTwoOwners.sessions.length)
       (h2 : i < (migrate_anonymous_sessions stTwoOwners "anon_a" "u1").1.sessions.length),
       ((stTwoOwners.sessions.get ⟨i, h1⟩).user_id = "anon_a" →
          (migrate_anonymous_sessions stTwoOwners "anon_a" "u1").1.sessions.get ⟨i, h2⟩ =
            { stTwoOwners.sessions.get ⟨i, h1⟩ with user_id := "u1" }) ∧
       ((stTwoOwners.sessions.get ⟨i, h1⟩).user_id ≠ "anon_a" →
          (migrate_anonymous_sessions stTwoOwners "anon_a" "u1").1.sessions.get ⟨i, h2⟩ =
            stTwoOwners.sessions.get ⟨i, h1⟩)) :=
  migrate_reparents_every_session stTwoOwners "anon_a" "u1" (by decide)

/-! ### C2 -/

/-- C2 counterexample: on a concrete store with exactly one session owned by
the anonymous id, migrate returns None (no value), not the count 1 of
reparented sessions that the update computed. -/
theorem migrate_return_value_is_none :
    (migrate_anonymous_sessions stTwoOwners "anon_a" "u1").2 = none ∧
    migrate_modified_count stTwoOwners "anon_a" "u1" = 1 ∧
    (migrate_anonymous_sessions stTwoOwners "anon_a" "u1").2 ≠
      some (migrate_modified_count stTwoOwners "anon_a" "u1") := by
  refine ⟨rfl, by decide, by decide⟩

theorem countP_map_reparent (anon nuid : String) (hne : anon ≠ nuid)
    (l : List Session) :
    (l.map (fun s =>
        if s.user_id == anon then { s with user_id := nuid } else s)).countP
        (fun s => s.user_id == nuid) =
      l.countP (fun s => s.user_id == nuid) +
        l.countP (fun s => s.user_id == anon) := by
  induction l with
  | nil => rfl
  | cons x xs ih =>
    have hne2 := Ne.symm hne
    by_cases hx : x.user_id = anon
    · simp only [List.map_cons, List.countP_cons, ih]
      simp [hx, hne, hne2]
      try omega
    · by_cases hx2 : x.user_id = nuid
      · simp only [List.map_cons, List.countP_cons, ih]
        simp [hx, hx2, hne, hne2]
        try omega
      · simp only [List.map_cons, List.countP_cons, ih]
        simp [hx, hx2, hne, hne2]
        try omega

/-- C2 amended: the number of sessions reparented equals the modified count
of the update, which migrate logs; the function itself returns no value. -/
theorem migrate_count_logged_not_returned (st : Store) (anon nuid : String)
    (hne : anon ≠ nuid) :
    (migrate_anonymous_sessions st anon nuid).2 = none ∧
    migrate_modified_count st anon nuid =
      st.sessions.countP (fun s => s.user_id == anon) ∧
    (migrate_anonymous_sessions st anon nuid).1.sessions.countP
        (fun s => s.user_id == nuid) =
      st.sessions.countP (fun s => s.user_id == nuid) +
        migrate_modified_count st anon nuid := by
  refine ⟨rfl, by simp [migrate_modified_count, hne], ?_⟩
  have h := countP_map_reparent anon nuid hne st.sessions
  simpa [migrate_anonymous_sessions, migrate_modified_count, hne] using h

/-- Closed instance of the amended C2 on the concrete two-owner store. -/
theorem migrate_count_logged_not_returned_witness :
    (migrate_anonymous_sessions stTwoOwners "anon_a" "u1").2 = none ∧
    migrate_modified_count stTwoOwners "anon_a" "u1" =
      stTwoOwners.sessions.countP (fun s => s.user_id == "anon_a") ∧
    (migrate_anonymous_sessions stTwoOwners "anon_a" "u1").1.sessions.countP
        (fun s => s.user_id == "u1") =
      stTwoOwners.sessions.countP (fun s => s.user_id == "u1") +
        migrate_modified_count stTwoOwners "anon_a" "u1" :=
  migrate_count_logged_not_returned stTwoOwners "anon_a" "u1" (by decide)

/-! ### C7 -/

/-- C7: two sequential get_or_create_anonymous_session calls with the same
owner and nothing in between return the same session_id. -/
theorem get_or_create_anonymous_idempotent (st : Store) (uid : String) :
    (get_or_create_anonymous_session
        (get_or_create_anonymous_session st uid).2 uid).1 =
      (get_or_create_anonymous_session st uid).1 := by
  rcases h : st.sessions.find? (sessionVisible uid) with _ | s
  · have hnone := List.find?_eq_none.mp h
    have hvis : sessionVisible uid
        { session_id := st.nextId, user_id := uid, title := "New Chat",
          created_at := st.clock, updated_at := st.clock + 1,
          message_count := 0, is_active := true } = true := by
      simp [sessionVisible]
    simp only [get_or_create_anonymous_session, h, create_session]
    rw [find?_append_of_forall_false _ _ _
      (fun a ha => Bool.eq_false_iff.mpr (fun hp => hnone a ha hp))]
    simp [List.find?, hvis]
  · simp [get_or_create_anonymous_session, h]

/-! ### C9 -/

/-- Deterministic stand-ins for the external bcrypt verify and jwt encode
collaborators, used in closed witness statements. -/
def verifyEq : String → String → Bool := fun p h => p == h

def jwtCat : String → String → String := fun a b => a ++ "." ++ b

def stOneUser : Store :=
  { sessions := [], messages := []
    users :=
      [ { user_id := "u1", email := "a@x.com", name := "Alice",
          password_hash := "p1", created_at := 0, last_active := 0 } ]
    nextId := 0, clock := 1 }

/-- C9: login fails exactly when no user matches the email or the stored
hash does not verify against the password, and every failure carries the
one fixed message, so an unregistered email and a wrong password on an
existing email produce identical failures. -/
theorem login_invalid_credentials_iff (verify : String → String → Bool)
    (jwtEnc : String → String → String) (st : Store) (email password : String) :
    (∀ e, login_user verify jwtEnc st email password = .error e →
       e = "Invalid email or password") ∧
    ((∃ e, login_user verify jwtEnc st email password = .error e) ↔
       (match st.users.find? (fun u => u.email == email) with
        | none => True
        | some u => verify password u.password_hash = false)) := by
  rcases h : st.users.find? (fun u => u.email == email) with _ | u
  · simp [login_user, h]
  · rcases hv : verify password u.password_hash with _ | _
    · simp [login_user, h, hv]
    · simp [login_user, h, hv]

/-- Closed instance of C9: wrong password on the registered email and an
unregistered email both yield the same fixed InvalidCredentials failure. -/
theorem login_invalid_credentials_iff_witness :
    ((∀ e, login_user verifyEq jwtCat stOneUser "a@x.com" "bad" = .error e →
        e = "Invalid email or password") ∧
     ((∃ e, login_user verifyEq jwtCat stOneUser "a@x.com" "bad" = .error e) ↔
        (match stOneUser.users.find? (fun u => u.email == "a@x.com") with
         | none => True
         | some u => verifyEq "bad" u.password_hash = false))) ∧
    ((∀ e, login_user verifyEq jwtCat stOneUser "z@x.com" "p1" = .error e →
        e = "Invalid email or password") ∧
     ((∃ e, login_user verifyEq jwtCat stOneUser "z@x.com" "p1" = .error e) ↔
        (match stOneUser.users.find? (fun u => u.email == "z@x.com") with
         | none => True
         | some u => verifyEq "p1" u.password_hash = false))) :=
  ⟨login_invalid_credentials_iff verifyEq jwtCat stOneUser "a@x.com" "bad",
   login_invalid_credentials_iff verifyEq jwtCat stOneUser "z@x.com" "p1"⟩

/-! ### More helper lemmas -/

theorem updateFirst_eq_of_forall_false (p : α → Bool) (f : α → α) (l : List α)
    (h : ∀ a ∈ l, p a = false) : updateFirst p f l = l := by
  induction l with
  | nil => rfl
  | cons x xs ih =>
    have hx := h x (by simp)
    simp only [updateFirst, hx, Bool.false_eq_true, if_false]
    rw [ih (fun a ha => h a (by simp [ha]))]

theorem mem_insertByTimestamp (a m : Message) (l : List Message) :
    a ∈ insertByTimestamp m l ↔ a = m ∨ a ∈ l := by
  induction l with
  | nil => simp [insertByTimestamp]
  | cons x xs ih =>
    by_cases hx : x.timestamp < m.timestamp
    · simp [insertByTimestamp, hx, ih]
      tauto
    · simp [insertByTimestamp, hx]

theorem mem_sortByTimestamp (a : Message) (l : List Message) :
    a ∈ sortByTimestamp l ↔ a ∈ l := by
  induction l with
  | nil => simp [sortByTimestamp]
  | cons x xs ih => simp [sortByTimestamp, mem_insertByTimestamp, ih]

theorem length_insertByTimestamp (m : Message) (l : List Message) :
    (insertByTimestamp m l).length = l.length + 1 := by
  induction l with
  | nil => rfl
  | cons x xs ih =>
    by_cases hx : x.timestamp < m.timestamp <;> simp [insertByTimestamp, hx, ih]

theorem length_sortByTimestamp (l : List Message) :
    (sortByTimestamp l).length = l.length := by
  induction l with
  | nil => rfl
  | cons x xs ih => simp [sortByTimestamp, length_insertByTimestamp, ih]

theorem deleteFirstCount_pos_iff (p : α → Bool) (l : List α) :
    0 < (deleteFirstCount p l).2 ↔ ∃ a ∈ l, p a = true := by
  induction l with
  | nil => simp [deleteFirstCount]
  | cons x xs ih =>
    by_cases hx : p x = true
    · simp only [deleteFirstCount, hx, if_true]
      exact ⟨fun _ => ⟨x, by simp, hx⟩, fun _ => by norm_num⟩
    · simp only [deleteFirstCount, hx, Bool.false_eq_true, if_false]
      rw [ih]
      constructor
      · rintro ⟨a, ha, hpa⟩
        exact ⟨a, by simp [ha], hpa⟩
      · rintro ⟨a, ha, hpa⟩
        rcases List.mem_cons.mp ha with rfl | ha
        · exact absurd hpa hx
        · exact ⟨a, ha, hpa⟩

theorem mem_of_mem_deleteFirstCount (p : α → Bool) (l : List α) (a : α)
    (ha : a ∈ (deleteFirstCount p l).1) : a ∈ l := by
  induction l with
  | nil => simp [deleteFirstCount] at ha
  | cons x xs ih =>
    by_cases hx : p x = true
    · simp only [deleteFirstCount, hx, if_true] at ha
      simp [ha]
    · simp only [deleteFirstCount, hx, Bool.false_eq_true, if_false] at ha
      rcases List.mem_cons.mp ha with rfl | ha
      · simp
      · simp [ih ha]

theorem deleteFirstCount_no_match (p : α → Bool) (l : List α)
    (h : l.countP p ≤ 1) : ∀ a ∈ (deleteFirstCount p l).1, p a = false := by
  induction l with
  | nil => simp [deleteFirstCount]
  | cons x xs ih =>
    by_cases hx : p x = true
    · intro a ha
      simp only [deleteFirstCount, hx, if_true] at ha
      have hcons := List.countP_cons p x xs
      rw [hx] at hcons
      simp at hcons
      have hzero : xs.countP p = 0 := by omega
      have := List.countP_eq_zero.mp hzero a ha
      simpa using this
    · intro a ha
      simp only [deleteFirstCount, hx, Bool.false_eq_true, if_false] at ha
      rcases List.mem_cons.mp ha with rfl | ha
      · exact Bool.eq_false_iff.mpr hx
      · have hcons := List.countP_cons p x xs
        have hle : xs.countP p ≤ 1 := by
          by_cases hpx : p x = true
          · exact absurd hpx hx
          · rw [hcons] at h
            simp [hpx] at h
            omega
        exact ih hle a ha

theorem countP_keyed_le_one (key : Session → Nat) (v : Nat) (l : List Session)
    (h : (l.map key).Nodup) : l.countP (fun a => key a == v) ≤ 1 := by
  induction l with
  | nil => simp
  | cons x xs ih =>
    rw [List.map_cons, List.nodup_cons] at h
    rw [List.countP_cons]
    by_cases hx : key x = v
    · have hzero : xs.countP (fun a => key a == v) = 0 := by
        apply List.countP_eq_zero.mpr
        intro a ha
        simp only [beq_iff_eq]
        intro hav
        apply h.1
        have hxa : key x = key a := by rw [hx, hav]
        rw [hxa]
        exact List.mem_map_of_mem key ha
      rw [hzero]
      simp [hx]
    · simp [hx]
      exact ih h.2

theorem find?_updateFirst_same (p : α → Bool) (f : α → α) (l : List α)
    (x : α) (hfind : l.find? p = some x) (hf : p (f x) = true) :
    (updateFirst p f l).find? p = some (f x) := by
  induction l with
  | nil => simp at hfind
  | cons y ys ih =>
    by_cases hy : p y = true
    · rw [List.find?_cons_of_pos _ hy] at hfind
      injection hfind with h
      subst h
      simp only [updateFirst, hy, if_true]
      exact List.find?_cons_of_pos _ hf
    · rw [List.find?_cons_of_neg _ (by simp [hy])] at hfind
      simp only [updateFirst, hy, Bool.false_eq_true, if_false]
      rw [List.find?_cons_of_neg _ (by simp [hy])]
      exact ih hfind

theorem find?_session_of_mem_nodup (l : List Session) (s : Session)
    (hnd : (l.map Session.session_id).Nodup) (hmem : s ∈ l) :
    l.find? (fun a => a.session_id == s.session_id) = some s := by
  induction l with
  | nil => simp at hmem
  | cons x xs ih =>
    rw [List.map_cons, List.nodup_cons] at hnd
    rcases List.mem_cons.mp hmem with rfl | hmem
    · exact List.find?_cons_of_pos _ (by simp)
    · have hne : x.session_id ≠ s.session_id := by
        intro he
        exact hnd.1 (he ▸ List.mem_map_of_mem Session.session_id hmem)
      rw [List.find?_cons_of_neg _ (by simp [hne])]
      exact ih hnd.2 hmem

/-! ### C8 -/

def stEmpty : Store :=
  { sessions := [], messages := [], users := [], nextId := 0, clock := 0 }

/-- C8 counterexample: on a concrete empty store, create_session gives the
inserted session created_at 0 but updated_at 1, because created_at and
updated_at come from two separate clock reads; they are not equal. -/
theorem create_session_clock_reads_differ :
    ((create_session stEmpty "u1").2.sessions.map Session.created_at = [0]) ∧
    ((create_session stEmpty "u1").2.sessions.map Session.updated_at = [1]) ∧
    ((create_session stEmpty "u1").2.sessions.map Session.created_at ≠
       (create_session stEmpty "u1").2.sessions.map Session.updated_at) :=
  ⟨rfl, rfl, by decide⟩

/-- C8 amended: create inserts a Session with title New Chat, zero count,
active, created_at and updated_at set by two consecutive clock reads at
creation time (so updated_at is the read after created_at, not necessarily
equal to it), and a fresh identifier distinct from every existing session
identifier, returning that identifier; messages and users are untouched. -/
theorem create_session_inserts_fresh_session (st : Store) (uid : String)
    (hwf : ∀ s ∈ st.sessions, s.session_id < st.nextId) :
    ((create_session st uid).2.sessions =
       st.sessions ++
         [{ session_id := (create_session st uid).1, user_id := uid,
            title := "New Chat", created_at := st.clock,
            updated_at := st.clock + 1, message_count := 0, is_active := true }]) ∧
    (∀ s ∈ st.sessions, s.session_id ≠ (create_session st uid).1) ∧
    ((create_session st uid).1 = st.nextId) ∧
    ((create_session st uid).2.messages = st.messages) ∧
    ((create_session st uid).2.users = st.users) := by
  refine ⟨rfl, ?_, rfl, rfl, rfl⟩
  intro s hs
  have := hwf s hs
  simp only [create_session]
  omega

/-- Closed instance of the amended C8 on the concrete two-owner store. -/
theorem create_session_inserts_fresh_session_witness :
    ((create_session stTwoOwners "carol").2.sessions =
       stTwoOwners.sessions ++
         [{ session_id := (create_session stTwoOwners "carol").1, user_id := "carol",
            title := "New Chat", created_at := stTwoOwners.clock,
            updated_at := stTwoOwners.clock + 1, message_count := 0, is_active := true }]) ∧
    (∀ s ∈ stTwoOwners.sessions, s.session_id ≠ (create_session stTwoOwners "carol").1) ∧
    ((create_session stTwoOwners "carol").1 = stTwoOwners.nextId) ∧
    ((create_session stTwoOwners "carol").2.messages = stTwoOwners.messages) ∧
    ((create_session stTwoOwners "carol").2.users = stTwoOwners.users) :=
  create_session_inserts_fresh_session stTwoOwners "carol" (by decide)

/-! ### C10 -/

/-- C10: appending a message to a session_id for which no Session record
exists succeeds: the message is inserted with a fresh message_id and is
returned by the message listing, while the session patch matches zero
documents and the sessions collection is unchanged. -/
theorem add_message_orphan_session (st : Store) (sid : Nat) (ty content : String)
    (limit : Nat)
    (hnosess : ∀ s ∈ st.sessions, s.session_id ≠ sid)
    (hwf : ∀ m ∈ st.messages, m.message_id < st.nextId)
    (hlim : st.messages.countP (fun m => m.session_id == sid) < limit) :
    ((add_message st sid ty content).2.sessions = st.sessions) ∧
    ((add_message st sid ty content).1 = st.nextId) ∧
    (∀ m ∈ st.messages, m.message_id ≠ (add_message st sid ty content).1) ∧
    ((⟨st.nextId, sid, ty, content, st.clock⟩ : Message) ∈
       (add_message st sid ty content).2.messages) ∧
    ((⟨st.nextId, sid, ty, content, st.clock⟩ : Message) ∈
       get_session_messages (add_message st sid ty content).2 sid limit) := by
  refine ⟨?_, rfl, ?_, ?_, ?_⟩
  · exact updateFirst_eq_of_forall_false _ _ _
      (fun s hs => by simp [hnosess s hs])
  · intro m hm
    have := hwf m hm
    simp only [add_message]
    omega
  · simp [add_message]
  · have hfilter :
        (add_message st sid ty content).2.messages.filter
            (fun m => m.session_id == sid) =
          st.messages.filter (fun m => m.session_id == sid) ++
            [⟨st.nextId, sid, ty, content, st.clock⟩] := by
      simp [add_message, List.filter_append]
    have hlen :
        (sortByTimestamp ((add_message st sid ty content).2.messages.filter
            (fun m => m.session_id == sid))).length ≤ limit := by
      rw [length_sortByTimestamp, hfilter, List.length_append,
        ← List.countP_eq_length_filter]
      simpa using hlim
    rw [get_session_messages, List.take_of_length_le hlen, mem_sortByTimestamp,
      hfilter]
    simp

/-- Closed instance of C10: a message appended under the unused session id 9
is stored and listed although no session 9 exists. -/
theorem add_message_orphan_session_witness :
    ((add_message stTwoOwners 9 "user" "hello").2.sessions = stTwoOwners.sessions) ∧
    ((add_message stTwoOwners 9 "user" "hello").1 = stTwoOwners.nextId) ∧
    (∀ m ∈ stTwoOwners.messages, m.message_id ≠ (add_message stTwoOwners 9 "user" "hello").1) ∧
    ((⟨stTwoOwners.nextId, 9, "user", "hello", stTwoOwners.clock⟩ : Message) ∈
       (add_message stTwoOwners 9 "user" "hello").2.messages) ∧
    ((⟨stTwoOwners.nextId, 9, "user", "hello", stTwoOwners.clock⟩ : Message) ∈
       get_session_messages (add_message stTwoOwners 9 "user" "hello").2 9 50) :=
  add_message_orphan_session stTwoOwners 9 "user" "hello" 50
    (by decide) (by decide) (by decide)

/-! ### C5 -/

/-- C5: delete_session deletes all messages of the session and then the
session record, returns true exactly when the session record existed, and
returns false instead of raising when either store call fails; a second
delete of the same id returns false. -/
theorem delete_session_spec (st : Store) (sid : Nat)
    (hnd : (st.sessions.map Session.session_id).Nodup) :
    ((delete_session st sid false false).1.messages =
       st.messages.filter (fun m => !(m.session_id == sid))) ∧
    (∀ s ∈ (delete_session st sid false false).1.sessions, s.session_id ≠ sid) ∧
    ((delete_session st sid false false).2 = true ↔
       ∃ s ∈ st.sessions, s.session_id = sid) ∧
    ((delete_session st sid true false).2 = false) ∧
    ((delete_session st sid false true).2 = false) ∧
    ((delete_session st sid true true).2 = false) ∧
    ((delete_session (delete_session st sid false false).1 sid false false).2 = false) := by
  have hle : st.sessions.countP (fun s => s.session_id == sid) ≤ 1 :=
    countP_keyed_le_one Session.session_id sid st.sessions hnd
  have hnomatch :=
    deleteFirstCount_no_match (fun s => s.session_id == sid) st.sessions hle
  refine ⟨rfl, ?_, ?_, rfl, rfl, rfl, ?_⟩
  · intro s hs
    have := hnomatch s (by simpa [delete_session] using hs)
    simpa using this
  · have hval : (delete_session st sid false false).2 =
        decide (0 < (deleteFirstCount (fun s => s.session_id == sid) st.sessions).2) := by
      simp [delete_session]
    rw [hval, decide_eq_true_eq, deleteFirstCount_pos_iff]
    constructor
    · rintro ⟨a, ha, hpa⟩
      exact ⟨a, ha, by simpa using hpa⟩
    · rintro ⟨a, ha, hpa⟩
      exact ⟨a, ha, by simpa using hpa⟩
  · have hsess : (delete_session st sid false false).1.sessions =
        (deleteFirstCount (fun s => s.session_id == sid) st.sessions).1 := by
      simp [delete_session]
    have hval : (delete_session (delete_session st sid false false).1 sid false false).2 =
        decide (0 < (deleteFirstCount (fun s => s.session_id == sid)
          (delete_session st sid false false).1.sessions).2) := by
      simp [delete_session]
    rw [hval, hsess, decide_eq_false_iff_not]
    intro hpos
    rw [deleteFirstCount_pos_iff] at hpos
    obtain ⟨a, ha, hpa⟩ := hpos
    exact absurd hpa (by simpa using hnomatch a ha)

/-- Closed instance of C5: deleting session 0 with its message succeeds,
failing store calls yield false, and the repeated delete yields false. -/
theorem delete_session_spec_witness :
    ((delete_session stTwoOwners 0 false false).1.messages =
       stTwoOwners.messages.filter (fun m => !(m.session_id == 0))) ∧
    (∀ s ∈ (delete_session stTwoOwners 0 false false).1.sessions, s.session_id ≠ 0) ∧
    ((delete_session stTwoOwners 0 false false).2 = true ↔
       ∃ s ∈ stTwoOwners.sessions, s.session_id = 0) ∧
    ((delete_session stTwoOwners 0 true false).2 = false) ∧
    ((delete_session stTwoOwners 0 false true).2 = false) ∧
    ((delete_session stTwoOwners 0 true true).2 = false) ∧
    ((delete_session (delete_session stTwoOwners 0 false false).1 0 false false).2 = false) :=
  delete_session_spec stTwoOwners 0 (by decide)

/-! ### C6 -/

/-- C6: for an owner with an active session, reset returns the session_id of
that existing session (no new identifier is allocated), and afterwards that
session has message_count 0 and its message listing is empty. -/
theorem reset_anonymous_session_spec (st : Store) (uid : String) (s0 : Session)
    (hanon : strStartsWith uid "anon_" = true)
    (hnd : (st.sessions.map Session.session_id).Nodup)
    (hfind : st.sessions.find? (sessionVisible uid) = some s0) :
    ((replace_anonymous_session_content st uid).1 = s0.session_id) ∧
    (∃ s ∈ st.sessions, s.session_id = (replace_anonymous_session_content st uid).1) ∧
    ((replace_anonymous_session_content st uid).2.nextId = st.nextId) ∧
    ((findSession (replace_anonymous_session_content st uid).2
        (replace_anonymous_session_content st uid).1).map Session.message_count =
       some 0) ∧
    (∀ limit, get_session_messages (replace_anonymous_session_content st uid).2
        (replace_anonymous_session_content st uid).1 limit = []) := by
  have hmem : s0 ∈ st.sessions := List.mem_of_find?_eq_some hfind
  have hret : (replace_anonymous_session_content st uid).1 = s0.session_id := by
    simp [replace_anonymous_session_content, hfind]
  refine ⟨hret, ⟨s0, hmem, hret.symm⟩, ?_, ?_, ?_⟩
  · simp [replace_anonymous_session_content, hfind]
  · rw [hret]
    have hfind0 : st.sessions.find? (fun a => a.session_id == s0.session_id) = some s0 :=
      find?_session_of_mem_nodup st.sessions s0 hnd hmem
    have hupd := find?_updateFirst_same
      (fun a => a.session_id == s0.session_id)
      (fun s => { s with title := "New Chat", updated_at := st.clock, message_count := 0 })
      st.sessions s0 hfind0 (by simp)
    simp only [findSession, replace_anonymous_session_content, hfind]
    rw [hupd]
    rfl
  · intro limit
    rw [hret]
    have hnomsg :
        (st.messages.filter (fun m => !(m.session_id == s0.session_id))).filter
            (fun m => m.session_id == s0.session_id) = [] := by
      rw [List.filter_eq_nil_iff]
      intro m hm
      have := (List.mem_filter.mp hm).2
      simpa using this
    simp only [get_session_messages, replace_anonymous_session_content, hfind]
    rw [hnomsg]
    simp [sortByTimestamp]

/-- Closed instance of C6: resetting the active session of anon_a keeps
session_id 0, zeroes its counter and empties its message listing. -/
def sessAnonA : Session :=
  { session_id := 0
    user_id := "anon_a"
    title := "New Chat"
    created_at := 0
    updated_at := 1
    message_count := 1
    is_active := true }

theorem reset_anonymous_session_spec_witness :
    ((replace_anonymous_session_content stTwoOwners "anon_a").1 =
       Session.session_id sessAnonA) ∧
    (∃ s ∈ stTwoOwners.sessions,
       s.session_id = (replace_anonymous_session_content stTwoOwners "anon_a").1) ∧
    ((replace_anonymous_session_content stTwoOwners "anon_a").2.nextId =
       stTwoOwners.nextId) ∧
    ((findSession (replace_anonymous_session_content stTwoOwners "anon_a").2
        (replace_anonymous_session_content stTwoOwners "anon_a").1).map
        Session.message_count = some 0) ∧
    (∀ limit, get_session_messages (replace_anonymous_session_content stTwoOwners "anon_a").2
        (replace_anonymous_session_content stTwoOwners "anon_a").1 limit = []) :=
  reset_anonymous_session_spec stTwoOwners "anon_a" sessAnonA
    (by decide) (by decide) (by decide)

/-! ### C4 -/

theorem head_filter_first_match (p : α → Bool) (l : List α) (x : α)
    (h : (l.filter p).head? = some x) :
    ∃ i, ∃ hi : i < l.length, l.get ⟨i, hi⟩ = x ∧ p x = true ∧
      ∀ j (hj : j < l.length), j < i → p (l.get ⟨j, hj⟩) = false := by
  induction l with
  | nil => simp at h
  | cons a as ih =>
    by_cases ha : p a = true
    · rw [List.filter_cons_of_pos ha] at h
      simp only [List.head?_cons, Option.some.injEq] at h
      subst h
      exact ⟨0, by simp, rfl, ha, fun j hj hj0 => absurd hj0 (by omega)⟩
    · rw [List.filter_cons_of_neg (by simpa using ha)] at h
      obtain ⟨i, hi, hx, hpx, hprev⟩ := ih h
      refine ⟨i + 1, by simpa using hi, by simpa using hx, hpx, ?_⟩
      intro j hj hj1
      cases j with
      | zero => simpa using Bool.eq_false_iff.mpr ha
      | succ k =>
        have := hprev k (by omega) (by omega)
        simpa using this

def sessAnonOld : Session :=
  { session_id := 1, user_id := "anon_a", title := "A", created_at := 0,
    updated_at := 5, message_count := 0, is_active := true }

def sessAnonNew : Session :=
  { session_id := 2, user_id := "anon_a", title := "B", created_at := 0,
    updated_at := 10, message_count := 0, is_active := true }

def stAnonTwo : Store :=
  { sessions := [sessAnonOld, sessAnonNew]
    messages := []
    users := []
    nextId := 3
    clock := 11 }

/-- C4 counterexample: with two active sessions for the anonymous owner,
the listing returns the first one in collection order, whose updated_at is
5, although another active session of the same owner has updated_at 10; the
returned session is not the most-recently-active one. -/
theorem list_for_owner_anonymous_not_most_recent :
    ((get_user_sessions stAnonTwo "anon_a" 20).map SessionSummary.updated_at = [5]) ∧
    ((get_user_sessions stAnonTwo "anon_a" 20).map SessionSummary.session_id = [1]) ∧
    (∃ s ∈ stAnonTwo.sessions,
       sessionVisible "anon_a" s = true ∧ s.updated_at = 10) ∧
    ((5 : Nat) < 10) := by
  refine ⟨by decide, by decide, ?_, by decide⟩
  exact ⟨sessAnonNew, by decide, by decide, rfl⟩

/-- C4 amended: for an anonymous owner the listing returns at most one
session, namely the first active session of that owner in collection
(insertion) order; the source applies no sort in this branch, so the
returned session need not be the most-recently-active one. -/
theorem list_for_owner_anonymous_first_match (st : Store) (uid : String)
    (limit : Nat) (hanon : strStartsWith uid "anon_" = true) :
    ((get_user_sessions st uid limit).length ≤ 1) ∧
    (∀ summ ∈ get_user_sessions st uid limit,
       ∃ i, ∃ hi : i < st.sessions.length,
         sessionVisible uid (st.sessions.get ⟨i, hi⟩) = true ∧
         summ = summarize (st.sessions.get ⟨i, hi⟩) ∧
         ∀ j (hj : j < st.sessions.length), j < i →
           sessionVisible uid (st.sessions.get ⟨j, hj⟩) = false) := by
  have hrun : get_user_sessions st uid limit =
      ((st.sessions.filter (sessionVisible uid)).take 1).map summarize := by
    simp [get_user_sessions, hanon]
  constructor
  · rw [hrun, List.length_map]
    rcases hfl : st.sessions.filter (sessionVisible uid) with _ | ⟨x, xs⟩ <;> simp
  · intro summ hs
    rw [hrun] at hs
    obtain ⟨d, hd, rfl⟩ := List.mem_map.mp hs
    have hhead : (st.sessions.filter (sessionVisible uid)).head? = some d := by
      rcases hfl : st.sessions.filter (sessionVisible uid) with _ | ⟨x, xs⟩
      · rw [hfl] at hd
        simp at hd
      · rw [hfl] at hd
        simp at hd
        subst hd
        simp
    obtain ⟨i, hi, hx, hpx, hprev⟩ := head_filter_first_match _ _ _ hhead
    exact ⟨i, hi, by rw [hx]; exact hpx, by rw [hx], hprev⟩

/-- Closed instance of the amended C4 on the concrete two-session store. -/
theorem list_for_owner_anonymous_first_match_witness :
    ((get_user_sessions stAnonTwo "anon_a" 20).length ≤ 1) ∧
    (∀ summ ∈ get_user_sessions stAnonTwo "anon_a" 20,
       ∃ i, ∃ hi : i < stAnonTwo.sessions.length,
         sessionVisible "anon_a" (stAnonTwo.sessions.get ⟨i, hi⟩) = true ∧
         summ = summarize (stAnonTwo.sessions.get ⟨i, hi⟩) ∧
         ∀ j (hj : j < stAnonTwo.sessions.length), j < i →
           sessionVisible "anon_a" (stAnonTwo.sessions.get ⟨j, hj⟩) = false) :=
  list_for_owner_anonymous_first_match stAnonTwo "anon_a" 20 (by decide)

/-! ### C3: helper lemmas for invariant preservation -/

theorem map_updateFirst_eq (p : α → Bool) (f : α → α) (g : α → β)
    (hg : ∀ a, g (f a) = g a) : ∀ l : List α, (updateFirst p f l).map g = l.map g := by
  intro l
  induction l with
  | nil => rfl
  | cons x xs ih =>
    by_cases hx : p x = true
    · simp [updateFirst, hx, hg]
    · simp [updateFirst, hx, ih]

theorem deleteFirstCount_sublist (p : α → Bool) :
    ∀ l : List α, (deleteFirstCount p l).1.Sublist l := by
  intro l
  induction l with
  | nil => simp [deleteFirstCount]
  | cons x xs ih =>
    by_cases hx : p x = true
    · simp only [deleteFirstCount, hx, if_true]
      exact List.sublist_cons_self x xs
    · simp only [deleteFirstCount, hx, Bool.false_eq_true, if_false]
      exact List.Sublist.cons₂ x ih

theorem countP_filter_other (msgs : List Message) (sid0 sid1 : Nat)
    (h : sid1 ≠ sid0) :
    (msgs.filter (fun m => !(m.session_id == sid0))).countP
        (fun m => m.session_id == sid1) =
      msgs.countP (fun m => m.session_id == sid1) := by
  induction msgs with
  | nil => rfl
  | cons m ms ih =>
    by_cases hm : m.session_id = sid0
    · rw [List.filter_cons_of_neg (by simp [hm])]
      rw [ih, List.countP_cons]
      have : (m.session_id == sid1) = false := by
        simp [hm]
        exact fun he => absurd he.symm h
      simp [this]
    · rw [List.filter_cons_of_pos (by simp [hm])]
      rw [List.countP_cons, List.countP_cons, ih]

theorem countP_filter_self (msgs : List Message) (sid0 : Nat) :
    (msgs.filter (fun m => !(m.session_id == sid0))).countP
        (fun m => m.session_id == sid0) = 0 := by
  apply List.countP_eq_zero.mpr
  intro m hm
  have := (List.mem_filter.mp hm).2
  simpa using this

theorem countInv_updateFirst_inc (msgs : List Message) (msg : Message) (t : Nat) :
    ∀ l : List Session, (l.map Session.session_id).Nodup →
      (∀ s ∈ l, s.message_count = msgs.countP (fun m => m.session_id == s.session_id)) →
      ∀ s ∈ updateFirst (fun a => a.session_id == msg.session_id)
          (fun a => { a with updated_at := t, message_count := a.message_count + 1 }) l,
        s.message_count = (msgs ++ [msg]).countP (fun m => m.session_id == s.session_id) := by
  intro l
  induction l with
  | nil =>
    intro _ _ s hs
    simp [updateFirst] at hs
  | cons x xs ih =>
    intro hnd hinv s hs
    rw [List.map_cons, List.nodup_cons] at hnd
    by_cases hx : (x.session_id == msg.session_id) = true
    · simp only [updateFirst, hx, if_true] at hs
      rcases List.mem_cons.mp hs with rfl | hs
      · have hcnt := hinv x (by simp)
        rw [List.countP_append, List.countP_cons]
        simp only [List.countP_nil]
        have hxm : x.session_id = msg.session_id := by simpa using hx
        simp [hxm, hcnt]
      · have hsx : s.session_id ≠ msg.session_id := by
          intro he
          apply hnd.1
          have hxm : x.session_id = msg.session_id := by simpa using hx
          rw [hxm, ← he]
          exact List.mem_map_of_mem Session.session_id hs
        rw [List.countP_append, List.countP_cons]
        simp only [List.countP_nil]
        have : (msg.session_id == s.session_id) = false := by
          simp
          exact fun he => hsx he.symm
        simp [this]
        exact hinv s (by simp [hs])
    · simp only [updateFirst, hx, Bool.false_eq_true, if_false] at hs
      rcases List.mem_cons.mp hs with rfl | hs
      · have hne : ¬ s.session_id = msg.session_id := by simpa using hx
        have hsx : (msg.session_id == s.session_id) = false := by
          simp
          exact fun he => hne he.symm
        rw [List.countP_append, List.countP_cons]
        simp only [List.countP_nil]
        simp [hsx]
        exact hinv s (by simp)
      · exact ih hnd.2 (fun a ha => hinv a (by simp [ha])) s hs

theorem countInv_updateFirst_reset (msgs : List Message) (sid0 t : Nat) :
    ∀ l : List Session, (l.map Session.session_id).Nodup →
      (∀ s ∈ l, s.message_count = msgs.countP (fun m => m.session_id == s.session_id)) →
      ∀ s ∈ updateFirst (fun a => a.session_id == sid0)
          (fun a => { a with title := "New Chat", updated_at := t, message_count := 0 }) l,
        s.message_count = (msgs.filter (fun m => !(m.session_id == sid0))).countP
          (fun m => m.session_id == s.session_id) := by
  intro l
  induction l with
  | nil =>
    intro _ _ s hs
    simp [updateFirst] at hs
  | cons x xs ih =>
    intro hnd hinv s hs
    rw [List.map_cons, List.nodup_cons] at hnd
    by_cases hx : (x.session_id == sid0) = true
    · simp only [updateFirst, hx, if_true] at hs
      rcases List.mem_cons.mp hs with rfl | hs
      · have hxm : x.session_id = sid0 := by simpa using hx
        simp [hxm, countP_filter_self]
      · have hsx : s.session_id ≠ sid0 := by
          intro he
          apply hnd.1
          have hxm : x.session_id = sid0 := by simpa using hx
          rw [hxm, ← he]
          exact List.mem_map_of_mem Session.session_id hs
        rw [countP_filter_other msgs sid0 s.session_id hsx]
        exact hinv s (by simp [hs])
    · simp only [updateFirst, hx, Bool.false_eq_true, if_false] at hs
      rcases List.mem_cons.mp hs with rfl | hs
      · have hsx : s.session_id ≠ sid0 := by simpa using hx
        rw [countP_filter_other msgs sid0 s.session_id hsx]
        exact hinv s (by simp)
      · exact ih hnd.2 (fun a ha => hinv a (by simp [ha])) s hs

theorem countInv_create (st : Store) (uid : String)
    (hwfmsg : ∀ m ∈ st.messages, m.session_id < st.nextId)
    (hinv : countInv st) : countInv (create_session st uid).2 := by
  intro s hs
  simp only [create_session] at hs ⊢
  rcases List.mem_append.mp hs with hs | hs
  · exact hinv s hs
  · simp only [List.mem_singleton] at hs
    subst hs
    have hzero : st.messages.countP (fun m => m.session_id == st.nextId) = 0 := by
      apply List.countP_eq_zero.mpr
      intro m hm
      have := hwfmsg m hm
      simp
      omega
    simp [hzero]

theorem countInv_add_message (st : Store) (sid : Nat) (ty c : String)
    (hnd : (st.sessions.map Session.session_id).Nodup)
    (hinv : countInv st) : countInv (add_message st sid ty c).2 := by
  intro s hs
  simp only [add_message] at hs ⊢
  exact countInv_updateFirst_inc st.messages
    ⟨st.nextId, sid, ty, c, st.clock⟩ (st.clock + 1) st.sessions hnd hinv s hs

theorem countInv_delete (st : Store) (sid : Nat)
    (hnd : (st.sessions.map Session.session_id).Nodup)
    (hinv : countInv st) : countInv (delete_session st sid false false).1 := by
  intro s hs
  have hs1 : s ∈ (deleteFirstCount (fun a => a.session_id == sid) st.sessions).1 := by
    simpa [delete_session] using hs
  have hs0 : s ∈ st.sessions := mem_of_mem_deleteFirstCount _ _ _ hs1
  have hle := countP_keyed_le_one Session.session_id sid st.sessions hnd
  have hno := deleteFirstCount_no_match _ _ hle s hs1
  have hsx : s.session_id ≠ sid := by simpa using hno
  have hmsg : (delete_session st sid false false).1.messages =
      st.messages.filter (fun m => !(m.session_id == sid)) := by
    simp [delete_session]
  rw [hmsg, countP_filter_other st.messages sid s.session_id hsx]
  exact hinv s hs0

theorem countInv_reset (st : Store) (uid : String)
    (hnd : (st.sessions.map Session.session_id).Nodup)
    (hwfmsg : ∀ m ∈ st.messages, m.session_id < st.nextId)
    (hinv : countInv st) : countInv (replace_anonymous_session_content st uid).2 := by
  rcases hf : st.sessions.find? (sessionVisible uid) with _ | s0
  · have heq : (replace_anonymous_session_content st uid).2 = (create_session st uid).2 := by
      simp [replace_anonymous_session_content, hf]
    rw [heq]
    exact countInv_create st uid hwfmsg hinv
  · intro s hs
    simp only [replace_anonymous_session_content, hf] at hs ⊢
    exact countInv_updateFirst_reset st.messages s0.session_id st.clock
      st.sessions hnd hinv s hs

theorem countInv_migrate (st : Store) (anon nuid : String)
    (hinv : countInv st) : countInv (migrate_anonymous_sessions st anon nuid).1 := by
  intro s hs
  simp only [migrate_anonymous_sessions] at hs ⊢
  obtain ⟨a, ha, rfl⟩ := List.mem_map.mp hs
  have hcnt := hinv a ha
  by_cases h : (a.user_id == anon) = true
  · simp only [h, if_true]
    exact hcnt
  · simp only [h, Bool.false_eq_true, if_false]
    exact hcnt

theorem wf_create (st : Store) (uid : String) (hwf : wfStore st) :
    wfStore (create_session st uid).2 := by
  obtain ⟨h1, h2, h3, h4⟩ := hwf
  refine ⟨?_, ?_, ?_, ?_⟩
  · intro s hs
    simp only [create_session] at hs ⊢
    rcases List.mem_append.mp hs with hs | hs
    · have := h1 s hs
      omega
    · simp only [List.mem_singleton] at hs
      subst hs
      simp
  · intro m hm
    have := h2 m hm
    simp only [create_session]
    omega
  · intro m hm
    have := h3 m hm
    simp only [create_session]
    omega
  · simp only [create_session, List.map_append]
    rw [List.nodup_append]
    refine ⟨h4, by simp, ?_⟩
    intro v hv
    obtain ⟨s, hsmem, he⟩ := List.mem_map.mp hv
    have := h1 s hsmem
    simp
    omega

theorem wf_add_message (st : Store) (sid : Nat) (ty c : String)
    (hsid : sid < st.nextId) (hwf : wfStore st) :
    wfStore (add_message st sid ty c).2 := by
  obtain ⟨h1, h2, h3, h4⟩ := hwf
  have hmap : ((add_message st sid ty c).2.sessions.map Session.session_id) =
      st.sessions.map Session.session_id := by
    simp only [add_message]
    exact map_updateFirst_eq (fun s => s.session_id == sid)
      (fun s => { s with updated_at := st.clock + 1, message_count := s.message_count + 1 })
      Session.session_id (fun a => rfl) st.sessions
  refine ⟨?_, ?_, ?_, ?_⟩
  · intro s hs
    have hv := List.mem_map_of_mem Session.session_id hs
    rw [hmap] at hv
    obtain ⟨s0, hs0, he⟩ := List.mem_map.mp hv
    rw [← he]
    have := h1 s0 hs0
    simp only [add_message]
    omega
  · intro m hm
    simp only [add_message] at hm ⊢
    rcases List.mem_append.mp hm with hm | hm
    · have := h2 m hm
      omega
    · simp only [List.mem_singleton] at hm
      subst hm
      simp
      omega
  · intro m hm
    simp only [add_message] at hm ⊢
    rcases List.mem_append.mp hm with hm | hm
    · have := h3 m hm
      omega
    · simp only [List.mem_singleton] at hm
      subst hm
      simp
  · rw [hmap]
    exact h4

theorem wf_delete (st : Store) (sid : Nat) (hwf : wfStore st) :
    wfStore (delete_session st sid false false).1 := by
  obtain ⟨h1, h2, h3, h4⟩ := hwf
  have hsess : (delete_session st sid false false).1.sessions =
      (deleteFirstCount (fun a => a.session_id == sid) st.sessions).1 := by
    simp [delete_session]
  have hmsg : (delete_session st sid false false).1.messages =
      st.messages.filter (fun m => !(m.session_id == sid)) := by
    simp [delete_session]
  have hnext : (delete_session st sid false false).1.nextId = st.nextId := by
    simp [delete_session]
  refine ⟨?_, ?_, ?_, ?_⟩
  · intro s hs
    rw [hsess] at hs
    rw [hnext]
    exact h1 s (mem_of_mem_deleteFirstCount _ _ _ hs)
  · intro m hm
    rw [hmsg] at hm
    rw [hnext]
    exact h2 m (List.mem_of_mem_filter hm)
  · intro m hm
    rw [hmsg] at hm
    rw [hnext]
    exact h3 m (List.mem_of_mem_filter hm)
  · rw [hsess]
    exact List.Nodup.sublist
      ((deleteFirstCount_sublist _ st.sessions).map Session.session_id) h4

theorem wf_reset (st : Store) (uid : String) (hwf : wfStore st) :
    wfStore (replace_anonymous_session_content st uid).2 := by
  rcases hf : st.sessions.find? (sessionVisible uid) with _ | s0
  · have heq : (replace_anonymous_session_content st uid).2 = (create_session st uid).2 := by
      simp [replace_anonymous_session_content, hf]
    rw [heq]
    exact wf_create st uid hwf
  · obtain ⟨h1, h2, h3, h4⟩ := hwf
    have hmap : ((replace_anonymous_session_content st uid).2.sessions.map Session.session_id) =
        st.sessions.map Session.session_id := by
      simp only [replace_anonymous_session_content, hf]
      exact map_updateFirst_eq (fun s => s.session_id == s0.session_id)
        (fun s => { s with title := "New Chat", updated_at := st.clock, message_count := 0 })
        Session.session_id (fun a => rfl) st.sessions
    have hmsg : (replace_anonymous_session_content st uid).2.messages =
        st.messages.filter (fun m => !(m.session_id == s0.session_id)) := by
      simp [replace_anonymous_session_content, hf]
    have hnext : (replace_anonymous_session_content st uid).2.nextId = st.nextId := by
      simp [replace_anonymous_session_content, hf]
    refine ⟨?_, ?_, ?_, ?_⟩
    · intro s hs
      have hv := List.mem_map_of_mem Session.session_id hs
      rw [hmap] at hv
      obtain ⟨t, ht, he⟩ := List.mem_map.mp hv
      rw [← he, hnext]
      exact h1 t ht
    · intro m hm
      rw [hmsg] at hm
      rw [hnext]
      exact h2 m (List.mem_of_mem_filter hm)
    · intro m hm
      rw [hmsg] at hm
      rw [hnext]
      exact h3 m (List.mem_of_mem_filter hm)
    · rw [hmap]
      exact h4

theorem wf_migrate (st : Store) (anon nuid : String) (hwf : wfStore st) :
    wfStore (migrate_anonymous_sessions st anon nuid).1 := by
  obtain ⟨h1, h2, h3, h4⟩ := hwf
  have hmap : ((migrate_anonymous_sessions st anon nuid).1.sessions.map Session.session_id) =
      st.sessions.map Session.session_id := by
    simp only [migrate_anonymous_sessions, List.map_map]
    apply List.map_congr_left
    intro a ha
    by_cases h : (a.user_id == anon) = true <;> simp [h, Function.comp]
  refine ⟨?_, h2, h3, ?_⟩
  · intro s hs
    have hv := List.mem_map_of_mem Session.session_id hs
    rw [hmap] at hv
    obtain ⟨t, ht, he⟩ := List.mem_map.mp hv
    rw [← he]
    exact h1 t ht
  · rw [hmap]
    exact h4

theorem findSession_add_message (st : Store) (sid : Nat) (ty c : String) (k : Nat)
    (h : (findSession st sid).map Session.message_count = some k) :
    (findSession (add_message st sid ty c).2 sid).map Session.message_count =
      some (k + 1) := by
  rcases hf : findSession st sid with _ | s
  · rw [hf] at h
    simp at h
  · rw [hf] at h
    simp at h
    have hf2 : st.sessions.find? (fun a => a.session_id == sid) = some s := hf
    have hps := List.find?_some hf2
    have hupd := find?_updateFirst_same (fun a => a.session_id == sid)
      (fun a => { a with updated_at := st.clock + 1, message_count := a.message_count + 1 })
      st.sessions s hf2 (by simpa using hps)
    have hrun : findSession (add_message st sid ty c).2 sid =
        some { s with updated_at := st.clock + 1, message_count := s.message_count + 1 } := by
      simp only [findSession, add_message]
      exact hupd
    rw [hrun]
    simp [h]

theorem appendMsgs_message_count (sid : Nat) (msgs : List (String × String)) :
    ∀ st k, (findSession st sid).map Session.message_count = some k →
      (findSession (appendMsgs st sid msgs) sid).map Session.message_count =
        some (k + msgs.length) := by
  induction msgs with
  | nil =>
    intro st k h
    simpa [appendMsgs] using h
  | cons m rest ih =>
    intro st k h
    obtain ⟨ty, c⟩ := m
    have step := findSession_add_message st sid ty c k h
    have hrec := ih (add_message st sid ty c).2 (k + 1) step
    have harith : k + 1 + rest.length = k + (rest.length + 1) := by omega
    rw [harith] at hrec
    simpa [appendMsgs] using hrec

theorem findSession_create (st : Store) (uid : String)
    (hwf : ∀ s ∈ st.sessions, s.session_id < st.nextId) :
    (findSession (create_session st uid).2 (create_session st uid).1).map
        Session.message_count = some 0 := by
  have hnone : ∀ a ∈ st.sessions, (fun s => s.session_id == st.nextId) a = false := by
    intro a ha
    have := hwf a ha
    simp
    omega
  simp only [findSession, create_session]
  rw [find?_append_of_forall_false _ _ _ hnone]
  simp [List.find?]

/-! ### C3 -/

/-- C3: every session counts exactly the messages referencing it: the
invariant, together with store well-formedness, is preserved by each
sequential operation of the lifecycle manager, and after N sequential
append calls on a freshly created session that session's message_count is
exactly N. -/
theorem message_count_invariant (st : Store) (hwf : wfStore st) (hinv : countInv st) :
    (∀ op, opOK st op → countInv (applyOp st op) ∧ wfStore (applyOp st op)) ∧
    (∀ uid : String, ∀ msgs : List (String × String),
       (findSession (appendMsgs (create_session st uid).2 (create_session st uid).1 msgs)
           (create_session st uid).1).map Session.message_count = some msgs.length) := by
  constructor
  · intro op hok
    cases op with
    | create uid =>
      exact ⟨countInv_create st uid hwf.2.1 hinv, wf_create st uid hwf⟩
    | append sid ty c =>
      exact ⟨countInv_add_message st sid ty c hwf.2.2.2 hinv,
        wf_add_message st sid ty c hok hwf⟩
    | reset uid =>
      exact ⟨countInv_reset st uid hwf.2.2.2 hwf.2.1 hinv, wf_reset st uid hwf⟩
    | del sid =>
      exact ⟨countInv_delete st sid hwf.2.2.2 hinv, wf_delete st sid hwf⟩
    | migrate a b =>
      exact ⟨countInv_migrate st a b hinv, wf_migrate st a b hwf⟩
  · intro uid msgs
    have h0 := findSession_create st uid hwf.1
    have hall := appendMsgs_message_count (create_session st uid).1 msgs
      (create_session st uid).2 0 h0
    simpa using hall

/-- Closed instance of C3 on the concrete two-owner store, with a sample
three-message append run on a fresh session. -/
theorem message_count_invariant_witness :
    ((∀ op, opOK stTwoOwners op →
        countInv (applyOp stTwoOwners op) ∧ wfStore (applyOp stTwoOwners op)) ∧
     (∀ uid : String, ∀ msgs : List (String × String),
        (findSession
            (appendMsgs (create_session stTwoOwners uid).2
              (create_session stTwoOwners uid).1 msgs)
            (create_session stTwoOwners uid).1).map Session.message_count =
          some msgs.length)) ∧
    ((findSession
        (appendMsgs (create_session stTwoOwners "anon_b").2
          (create_session stTwoOwners "anon_b").1
          [("user", "hi"), ("ai", "hello"), ("user", "why")])
        (create_session stTwoOwners "anon_b").1).map Session.message_count = some 3) := by
  have h := message_count_invariant stTwoOwners (by decide) (by decide)
  exact ⟨h, h.2 "anon_b" [("user", "hi"), ("ai", "hello"), ("user", "why")]⟩
